import Mathlib

/-!
A shallow embedding of the OSFS in-memory filesystem core
(lab4, bonus multi-level-indexing variant; mount path from the shared
super.c) together with proofs about its documented properties.

Modelling conventions:
* The single backing memory region is split into its logical parts:
  the two bitmaps are functions from a bit index to Bool, the inode
  table is a function from an inode number to an inode record, and the
  data-block area is a byte memory, a function from (physical block
  number, byte offset) to the stored byte.
* The C code reinterprets data blocks both as raw bytes and as arrays
  of uint32_t; the model keeps one byte memory and performs 4-byte
  little-endian loads and stores for the uint32_t view.
* uint32_t counters that can actually wrap in reachable states
  (nr_free_inodes, nr_free_blocks, i_size on assignment from loff_t)
  use arithmetic modulo 2^32; quantities that stay far below 2^32 in
  every reachable state (loop counters, i_blocks) use plain Nat.
* Kernel-interface aspects with no bearing on the claims (timestamps,
  uid/gid, the VFS inode mirror, mark_inode_dirty, user-memory copy
  faults) are not modelled; copy_from_user/copy_to_user are assumed to
  succeed.
* Fallible C functions returning 0 or a negative errno are modelled as
  returning an Int together with their out-parameters and the mutated
  state.
-/

/-! ### Constants (osfs.h) -/

def BLOCK_SIZE : Nat := 4096
def INODE_COUNT : Nat := 20
def DATA_BLOCK_COUNT : Nat := 20
def MAX_FILENAME_LEN : Nat := 255
def ROOT_INODE : Nat := 1
def OSFS_N_DIRECT : Nat := 12
def OSFS_N_BLOCKS : Nat := OSFS_N_DIRECT + 1 + 1
def OSFS_ADDR_PER_BLOCK : Nat := BLOCK_SIZE / 4

/-- sizeof(struct osfs_dir_entry): a 255-byte filename array, one byte of
padding, then the 4-byte inode_no field at offset 256. -/
def DIR_ENTRY_SIZE : Nat := 260

/-- Byte offset of the inode_no field inside a directory entry. -/
def DIR_ENTRY_INO_OFF : Nat := 256

/-- The declared size of the filename array of struct osfs_dir_entry. -/
def FILENAME_FIELD_BYTES : Nat := MAX_FILENAME_LEN

def MAX_DIR_ENTRIES : Nat := BLOCK_SIZE / DIR_ENTRY_SIZE

/-! ### errno values (as positive constants; the code returns their negations) -/

def ENOENT : Int := 2
def EIO5 : Int := 5
def EEXIST : Int := 17
def EINVAL : Int := 22
def EFBIG : Int := 27
def ENOSPC : Int := 28
def ENAMETOOLONG : Int := 36

/-! ### uint32 arithmetic -/

def U32 : Nat := 4294967296

/-- uint32_t decrement (wraps at 0, as the C counters do). -/
def dec32 (x : Nat) : Nat := (x + (U32 - 1)) % U32

/-- uint32_t increment. -/
def inc32 (x : Nat) : Nat := (x + 1) % U32

/-! ### File-type bits (linux S_IFMT masks, used by osfs_new_inode) -/

def S_IFDIR : Nat := 16384
def S_IFREG : Nat := 32768
def S_IFLNK : Nat := 40960

def S_ISDIR (m : Nat) : Bool := m &&& 61440 = S_IFDIR
def S_ISREG (m : Nat) : Bool := m &&& 61440 = S_IFREG
def S_ISLNK (m : Nat) : Bool := m &&& 61440 = S_IFLNK

/-! ### Data model -/

/-- struct osfs_inode (bonus variant): the block-pointer table i_block has
OSFS_N_BLOCKS = 14 meaningful slots; [0..11] direct, [12] indirect,
[13] double indirect.  Timestamps and uid/gid are not modelled. -/
structure OsfsInode where
  i_ino : Nat
  i_size : Nat
  i_blocks : Nat
  i_mode : Nat
  i_links_count : Nat
  i_block : Nat → Nat

/-- The mounted filesystem state: the fields of struct osfs_sb_info plus the
contents of the four sub-regions it points into. -/
structure FS where
  inode_count : Nat
  block_count : Nat
  nr_free_inodes : Nat
  nr_free_blocks : Nat
  inode_bitmap : Nat → Bool
  block_bitmap : Nat → Bool
  inode_table : Nat → OsfsInode
  data : Nat → Nat → Nat

/-! ### Primitive state updates -/

def setBit (bm : Nat → Bool) (i : Nat) : Nat → Bool :=
  fun j => if j = i then true else bm j

def clearBit (bm : Nat → Bool) (i : Nat) : Nat → Bool :=
  fun j => if j = i then false else bm j

def updTable (t : Nat → OsfsInode) (i : Nat) (v : OsfsInode) : Nat → OsfsInode :=
  fun j => if j = i then v else t j

/-- Store phys into slot j of the inode's block-pointer table. -/
def setIBlock (nd : OsfsInode) (j phys : Nat) : OsfsInode :=
  { nd with i_block := fun k => if k = j then phys else nd.i_block k }

/-- The osfs_inode->i_blocks++ performed after each successful allocation. -/
def bumpBlocks (nd : OsfsInode) : OsfsInode :=
  { nd with i_blocks := nd.i_blocks + 1 }

/-- Assignment osfs_inode->i_blocks = n. -/
def setBlocksCount (nd : OsfsInode) (n : Nat) : OsfsInode :=
  { nd with i_blocks := n }

/-- Assignment osfs_inode->i_size = n. -/
def setISize (nd : OsfsInode) (n : Nat) : OsfsInode :=
  { nd with i_size := n }

/-- The extra sb_info->nr_free_inodes-- at the end of osfs_new_inode. -/
def decFreeInodes (s : FS) : FS :=
  { s with nr_free_inodes := dec32 s.nr_free_inodes }

/-- Replace the inode record at index ino of the inode table. -/
def putInode (s : FS) (ino : Nat) (nd : OsfsInode) : FS :=
  { s with inode_table := updTable s.inode_table ino nd }

/-- Replace the byte memory of the data-block area. -/
def putData (s : FS) (m : Nat → Nat → Nat) : FS :=
  { s with data := m }

/-- Little-endian 4-byte load at byte offset off of a block
(the uint32_t view the C code uses for index blocks). -/
def memReadU32b (m : Nat → Nat → Nat) (blk off : Nat) : Nat :=
  m blk off % 256 + 256 * (m blk (off + 1) % 256) +
    65536 * (m blk (off + 2) % 256) + 16777216 * (m blk (off + 3) % 256)

/-- Little-endian 4-byte store at byte offset off of a block. -/
def memWriteU32b (m : Nat → Nat → Nat) (blk off v : Nat) : Nat → Nat → Nat :=
  fun b o => if b = blk ∧ off ≤ o ∧ o < off + 4 then v / 256 ^ (o - off) % 256 else m b o

/-- memset(block, 0, BLOCK_SIZE). -/
def memZeroBlock (m : Nat → Nat → Nat) (blk : Nat) : Nat → Nat → Nat :=
  fun b o => if b = blk ∧ o < BLOCK_SIZE then 0 else m b o

/-- memcpy of n bytes from buf[bufStart..] into the block at byte offset off
(the effect of copy_from_user in osfs_write).  Bytes are truncated to 8 bits. -/
def memCopyIn (m : Nat → Nat → Nat) (blk off : Nat) (buf : List Nat)
    (bufStart n : Nat) : Nat → Nat → Nat :=
  fun b o =>
    if b = blk ∧ off ≤ o ∧ o < off + n then buf.getD (bufStart + (o - off)) 0 % 256
    else m b o

/-! ### Bitmap scanning and counting -/

/-- First-fit scan: the first index i in [start, start+n) with bm i = false
(test_bit loop of the allocators). -/
def scanFree (bm : Nat → Bool) : Nat → Nat → Option Nat
  | _, 0 => none
  | i, n + 1 => if bm i then scanFree bm (i + 1) n else some i

/-- Number of zero bits among indices [0, n) of a bitmap. -/
def countZeroBits (bm : Nat → Bool) : Nat → Nat
  | 0 => 0
  | n + 1 => countZeroBits bm n + (if bm n then 0 else 1)

/-! ### Allocators (inode.c) -/

/-- osfs_get_free_inode: scan the inode bitmap from ino 1 upward, set the
first clear bit, decrement nr_free_inodes, return the inode number;
-ENOSPC when every bit in [1, inode_count) is set. -/
def osfs_get_free_inode (s : FS) : Except Int (Nat × FS) :=
  match scanFree s.inode_bitmap 1 (s.inode_count - 1) with
  | some ino =>
      .ok (ino, { s with inode_bitmap := setBit s.inode_bitmap ino,
                         nr_free_inodes := dec32 s.nr_free_inodes })
  | none => .error (-ENOSPC)

/-- osfs_alloc_data_block: scan the block bitmap from index 0 upward, set the
first clear bit, decrement nr_free_blocks, return the block number;
-ENOSPC when all bits in [0, block_count) are set.  On failure the
out-parameter (and hence the caller's pointer slot) is left untouched. -/
def osfs_alloc_data_block (s : FS) : Except Int (Nat × FS) :=
  match scanFree s.block_bitmap 0 s.block_count with
  | some b =>
      .ok (b, { s with block_bitmap := setBit s.block_bitmap b,
                       nr_free_blocks := dec32 s.nr_free_blocks })
  | none => .error (-ENOSPC)

/-- osfs_free_data_block: clear the bit and increment nr_free_blocks
(no ownership validation, exactly as in the C). -/
def osfs_free_data_block (s : FS) (blk : Nat) : FS :=
  { s with block_bitmap := clearBit s.block_bitmap blk,
           nr_free_blocks := inc32 s.nr_free_blocks }

/-- Projection used to state facts about allocator results. -/
def allocResultBlock (r : Except Int (Nat × FS)) : Option Nat :=
  match r with
  | .ok (b, _) => some b
  | .error _ => none

/-! ### osfs_get_block (inode.c, bonus variant)

Returns (ret, phys_block, state).  ret = 0 on success; *phys_block is 0 on
entry and error paths return before overwriting it, so phys = 0 there.
State mutations performed before a failing allocation persist, exactly as
in the C. -/

def osfs_get_block (s : FS) (ino blockNo : Nat) (create : Bool) : Int × Nat × FS :=
  if blockNo < OSFS_N_DIRECT then
    -- direct tier
    if (s.inode_table ino).i_block blockNo = 0 ∧ create then
      match osfs_alloc_data_block s with
      | .error ret => (ret, 0, s)
      | .ok (f, s1) =>
          let s2 := putInode s1 ino (bumpBlocks (setIBlock (s1.inode_table ino) blockNo f))
          (0, (s2.inode_table ino).i_block blockNo, s2)
    else (0, (s.inode_table ino).i_block blockNo, s)
  else
    let b1 := blockNo - OSFS_N_DIRECT
    if b1 < OSFS_ADDR_PER_BLOCK then
      -- single-indirect tier: first make sure the index block exists
      match
        (if (s.inode_table ino).i_block OSFS_N_DIRECT = 0 then
          if create = false then .error (-ENOENT)
          else
            match osfs_alloc_data_block s with
            | .error ret => .error ret
            | .ok (f, s1) =>
                .ok (putData
                  (putInode s1 ino (bumpBlocks (setIBlock (s1.inode_table ino) OSFS_N_DIRECT f)))
                  (memZeroBlock s1.data f))
        else (.ok s : Except Int FS)) with
      | .error ret => (ret, 0, s)
      | .ok s2 =>
          let T := (s2.inode_table ino).i_block OSFS_N_DIRECT
          if memReadU32b s2.data T (4 * b1) = 0 ∧ create then
            match osfs_alloc_data_block s2 with
            | .error ret => (ret, 0, s2)
            | .ok (f2, s3) =>
                let s4 := putData (putInode s3 ino (bumpBlocks (s3.inode_table ino)))
                  (memWriteU32b s3.data T (4 * b1) f2)
                (0, memReadU32b s4.data T (4 * b1), s4)
          else (0, memReadU32b s2.data T (4 * b1), s2)
    else
      let b2 := b1 - OSFS_ADDR_PER_BLOCK
      if b2 < OSFS_ADDR_PER_BLOCK * OSFS_ADDR_PER_BLOCK then
        -- double-indirect tier: make sure the top-level index block exists
        match
          (if (s.inode_table ino).i_block (OSFS_N_DIRECT + 1) = 0 then
            if create = false then .error (-ENOENT)
            else
              match osfs_alloc_data_block s with
              | .error ret => .error ret
              | .ok (f, s1) =>
                  .ok (putData
                    (putInode s1 ino
                      (bumpBlocks (setIBlock (s1.inode_table ino) (OSFS_N_DIRECT + 1) f)))
                    (memZeroBlock s1.data f))
          else (.ok s : Except Int FS)) with
        | .error ret => (ret, 0, s)
        | .ok s2 =>
            let T2 := (s2.inode_table ino).i_block (OSFS_N_DIRECT + 1)
            let idx1 := b2 / OSFS_ADDR_PER_BLOCK
            let idx2 := b2 % OSFS_ADDR_PER_BLOCK
            -- make sure the second-level index block referenced by idx1 exists
            match
              (if memReadU32b s2.data T2 (4 * idx1) = 0 then
                if create = false then .error (-ENOENT)
                else
                  match osfs_alloc_data_block s2 with
                  | .error ret => .error ret
                  | .ok (f, s3) =>
                      .ok (putData (putInode s3 ino (bumpBlocks (s3.inode_table ino)))
                        (memZeroBlock (memWriteU32b s3.data T2 (4 * idx1) f) f))
              else (.ok s2 : Except Int FS)) with
            | .error ret => (ret, 0, s2)
            | .ok s4 =>
                let T3 := memReadU32b s4.data T2 (4 * idx1)
                if memReadU32b s4.data T3 (4 * idx2) = 0 ∧ create then
                  match osfs_alloc_data_block s4 with
                  | .error ret => (ret, 0, s4)
                  | .ok (f2, s5) =>
                      let s6 := putData (putInode s5 ino (bumpBlocks (s5.inode_table ino)))
                        (memWriteU32b s5.data T3 (4 * idx2) f2)
                      (0, memReadU32b s6.data T3 (4 * idx2), s6)
                else (0, memReadU32b s4.data T3 (4 * idx2), s4)
      else (-EFBIG, 0, s)

/-! ### osfs_free_inode_blocks (inode.c) -/

/-- One step of the direct-pointer loop: free the block named by slot i
(when non-zero) and zero the slot. -/
def freeDirectStep (ino : Nat) (s : FS) (i : Nat) : FS :=
  let nd := s.inode_table ino
  if nd.i_block i ≠ 0 then
    putInode (osfs_free_data_block s (nd.i_block i)) ino (setIBlock nd i 0)
  else s

/-- One step of the indirect-table walk: free the data block named by entry i
of index block T when non-zero (the table entry itself is not cleared,
exactly as in the C). -/
def freeIndirectEntryStep (T : Nat) (s : FS) (i : Nat) : FS :=
  if memReadU32b s.data T (4 * i) ≠ 0 then
    osfs_free_data_block s (memReadU32b s.data T (4 * i))
  else s

/-- One step of the double-indirect walk: for a non-zero outer entry, free all
data blocks its second-level table names, then the second-level table. -/
def freeDIndirectEntryStep (T2 : Nat) (s : FS) (i : Nat) : FS :=
  let e := memReadU32b s.data T2 (4 * i)
  if e ≠ 0 then
    osfs_free_data_block ((List.range OSFS_ADDR_PER_BLOCK).foldl (freeIndirectEntryStep e) s) e
  else s

/-- The direct-pointer loop of osfs_free_inode_blocks. -/
def osfs_free_direct (s : FS) (ino : Nat) : FS :=
  (List.range OSFS_N_DIRECT).foldl (freeDirectStep ino) s

/-- The indirect stage of osfs_free_inode_blocks: when slot OSFS_N_DIRECT is
non-zero, free every non-zero entry of the index block, then the index
block itself, and zero the slot. -/
def osfs_free_indirect (s : FS) (ino : Nat) : FS :=
  if (s.inode_table ino).i_block OSFS_N_DIRECT ≠ 0 then
    let T := (s.inode_table ino).i_block OSFS_N_DIRECT
    let sA := (List.range OSFS_ADDR_PER_BLOCK).foldl (freeIndirectEntryStep T) s
    putInode (osfs_free_data_block sA T) ino
      (setIBlock ((osfs_free_data_block sA T).inode_table ino) OSFS_N_DIRECT 0)
  else s

/-- The double-indirect stage of osfs_free_inode_blocks. -/
def osfs_free_dindirect (s : FS) (ino : Nat) : FS :=
  if (s.inode_table ino).i_block (OSFS_N_DIRECT + 1) ≠ 0 then
    let T2 := (s.inode_table ino).i_block (OSFS_N_DIRECT + 1)
    let sB := (List.range OSFS_ADDR_PER_BLOCK).foldl (freeDIndirectEntryStep T2) s
    putInode (osfs_free_data_block sB T2) ino
      (setIBlock ((osfs_free_data_block sB T2).inode_table ino) (OSFS_N_DIRECT + 1) 0)
  else s

/-- osfs_free_inode_blocks: free every direct block, every block reachable
through the indirect and double-indirect tables together with the tables
themselves, zero the traversed pointer slots, and reset i_blocks to 0. -/
def osfs_free_inode_blocks (s : FS) (ino : Nat) : FS :=
  let s3 := osfs_free_dindirect (osfs_free_indirect (osfs_free_direct s ino) ino) ino
  putInode s3 ino (setBlocksCount (s3.inode_table ino) 0)

/-! ### osfs_write and osfs_read (file.c)

osfs_write returns (ret, bytes_written, new ppos, state): ret = 0 means the
call returns bytes_written (a short write included), ret < 0 is the errno
returned when nothing was written.  copy_from_user/copy_to_user faults are
not modelled. -/

def osfs_write_loop (s : FS) (ino : Nat) (buf : List Nat) (pos len written : Nat) :
    Int × Nat × Nat × FS :=
  if _h : len = 0 then (0, written, pos, s)
  else
    let blockNo := pos / BLOCK_SIZE
    let off := pos % BLOCK_SIZE
    let to_write := min len (BLOCK_SIZE - off)
    let r := osfs_get_block s ino blockNo true
    if r.1 ≠ 0 then
      if 0 < written then (0, written, pos, r.2.2) else (r.1, written, pos, r.2.2)
    else if r.2.1 = 0 then
      if 0 < written then (0, written, pos, r.2.2) else (-EIO5, written, pos, r.2.2)
    else
      osfs_write_loop (putData r.2.2 (memCopyIn r.2.2.data r.2.1 off buf written to_write))
        ino buf (pos + to_write) (len - to_write) (written + to_write)
termination_by len
decreasing_by
  have hoff : pos % BLOCK_SIZE < BLOCK_SIZE := Nat.mod_lt _ (by decide)
  simp only [BLOCK_SIZE] at *
  omega

def osfs_write (s : FS) (ino : Nat) (buf : List Nat) (ppos len : Nat) : Int × Nat × Nat × FS :=
  let r := osfs_write_loop s ino buf ppos len 0
  if r.1 ≠ 0 then r
  else
    let nd := r.2.2.2.inode_table ino
    -- if (*ppos > osfs_inode->i_size) i_size = *ppos  (uint32_t assignment)
    let s2 := if nd.i_size < r.2.2.1 then putInode r.2.2.2 ino (setISize nd (r.2.2.1 % U32))
      else r.2.2.2
    (0, r.2.1, r.2.2.1, s2)

/-- The read loop: get_block with create = 0; a failed resolution or a zero
physical block reads as to_read zero bytes (sparse hole). -/
def osfs_read_loop (s : FS) (ino : Nat) (pos len : Nat) (acc : List Nat) :
    List Nat × Nat × FS :=
  if _h : len = 0 then (acc, pos, s)
  else
    let blockNo := pos / BLOCK_SIZE
    let off := pos % BLOCK_SIZE
    let to_read := min len (BLOCK_SIZE - off)
    let r := osfs_get_block s ino blockNo false
    let chunk :=
      if r.1 ≠ 0 ∨ r.2.1 = 0 then List.replicate to_read 0
      else (List.range to_read).map fun o => r.2.2.data r.2.1 (off + o)
    osfs_read_loop r.2.2 ino (pos + to_read) (len - to_read) (acc ++ chunk)
termination_by len
decreasing_by
  have hoff : pos % BLOCK_SIZE < BLOCK_SIZE := Nat.mod_lt _ (by decide)
  simp only [BLOCK_SIZE] at *
  omega

/-- osfs_read returns (bytes read, new ppos, state). -/
def osfs_read (s : FS) (ino : Nat) (ppos len : Nat) : List Nat × Nat × FS :=
  let nd := s.inode_table ino
  if nd.i_blocks = 0 then ([], ppos, s)
  else if nd.i_size ≤ ppos then ([], ppos, s)
  else
    let len2 := if nd.i_size < ppos + len then nd.i_size - ppos else len
    osfs_read_loop s ino ppos len2 []

/-! ### Directory entry store (dir.c) -/

/-- Bounded strlen of the string stored at byte offset base of a block
(C strlen is unbounded; BLOCK_SIZE of fuel covers every state this
development evaluates it on). -/
def strlenFrom (m : Nat → Nat → Nat) (blk : Nat) : Nat → Nat → Nat
  | _, 0 => 0
  | base, fuel + 1 => if m blk base = 0 then 0 else 1 + strlenFrom m blk (base + 1) fuel

/-- strncmp(entry_name, name, name_len) = 0, for a name given as its list of
bytes: compare byte by byte, stopping early at a common NUL. -/
def strncmpEq (m : Nat → Nat → Nat) (blk : Nat) : Nat → List Nat → Bool
  | _, [] => true
  | base, c :: rest =>
      if m blk base = c % 256 then
        (if c % 256 = 0 then true else strncmpEq m blk (base + 1) rest)
      else false

/-- The duplicate test of osfs_add_dir_entry / the name test of osfs_lookup:
strlen(entry.filename) == name_len && strncmp(entry.filename, name, name_len) == 0. -/
def entryMatches (m : Nat → Nat → Nat) (blk k : Nat) (name : List Nat) : Bool :=
  strlenFrom m blk (DIR_ENTRY_SIZE * k) BLOCK_SIZE = name.length &&
    strncmpEq m blk (DIR_ENTRY_SIZE * k) name

/-- Some entry with index < count matches the name (the linear scan). -/
def anyDup (m : Nat → Nat → Nat) (blk : Nat) (name : List Nat) : Nat → Bool
  | 0 => false
  | k + 1 => anyDup m blk name k || entryMatches m blk k name

/-- Byte offset, inside the directory data block, of the NUL-terminator store
dir_entries[k].filename[name_len] performed by osfs_add_dir_entry. -/
def dirEntryTerminatorOff (k nameLen : Nat) : Nat := DIR_ENTRY_SIZE * k + nameLen

/-- The entry store of osfs_add_dir_entry: strncpy of the name bytes, the NUL
terminator at index name_len of the filename field, then the inode_no
field at byte offset 256 of the entry. -/
def writeDirEntry (m : Nat → Nat → Nat) (blk k : Nat) (name : List Nat) (childIno : Nat) :
    Nat → Nat → Nat :=
  memWriteU32b
    (fun b o =>
      if b = blk ∧ DIR_ENTRY_SIZE * k ≤ o ∧ o < DIR_ENTRY_SIZE * k + name.length then
        name.getD (o - DIR_ENTRY_SIZE * k) 0 % 256
      else if b = blk ∧ o = dirEntryTerminatorOff k name.length then 0
      else m b o)
    blk (DIR_ENTRY_SIZE * k + DIR_ENTRY_INO_OFF) childIno

/-- osfs_add_dir_entry: lazily allocate and zero the directory's data block,
reject a full directory (-ENOSPC) or a duplicate name (-EEXIST), else
append the entry at index count and grow the directory size by one
entry record. -/
def osfs_add_dir_entry (s : FS) (dirIno childIno : Nat) (name : List Nat) : Int × FS :=
  match
    (if (s.inode_table dirIno).i_blocks = 0 then
      match osfs_alloc_data_block s with
      | .error ret => .error ret
      | .ok (blk, s1) =>
          .ok (putData
            (putInode s1 dirIno (setBlocksCount (setIBlock (s1.inode_table dirIno) 0 blk) 1))
            (memZeroBlock s1.data blk))
    else (.ok s : Except Int FS)) with
  | .error ret => (ret, s)
  | .ok s2 =>
      let p := s2.inode_table dirIno
      let blk := p.i_block 0
      let count := p.i_size / DIR_ENTRY_SIZE
      if MAX_DIR_ENTRIES ≤ count then (-ENOSPC, s2)
      else if anyDup s2.data blk name count then (-EEXIST, s2)
      else
        (0, putData (putInode s2 dirIno (setISize p (p.i_size + DIR_ENTRY_SIZE)))
          (writeDirEntry s2.data blk count name childIno))

/-! ### osfs_new_inode and osfs_create (dir.c) -/

/-- osfs_new_inode, returning (ret, ino, state).  Note the second
nr_free_inodes decrement: osfs_get_free_inode already decremented it. -/
def osfs_new_inode (s : FS) (mode : Nat) : Int × Nat × FS :=
  if ¬(S_ISDIR mode || S_ISREG mode || S_ISLNK mode) then (-EINVAL, 0, s)
  else if s.nr_free_inodes = 0 then (-ENOSPC, 0, s)
  else
    match osfs_get_free_inode s with
    | .error _ => (-ENOSPC, 0, s)
    | .ok (ino, s1) =>
        if s1.inode_count ≤ ino then (-ENOSPC, 0, s1)
        else
          let nd : OsfsInode :=
            { i_ino := ino, i_size := 0, i_blocks := 0, i_mode := mode,
              i_links_count := if S_ISDIR mode then 2 else 1, i_block := fun _ => 0 }
          (0, ino, decFreeInodes (putInode s1 ino nd))

/-- osfs_create: validate the name length, allocate a fresh inode, insert the
directory entry.  When the insert fails the inode allocation is not rolled
back (iput/osfs_destroy_inode only clears the private pointer; no bitmap
bit is cleared and no counter is restored). -/
def osfs_create (s : FS) (dirIno : Nat) (name : List Nat) (mode : Nat) : Int × Nat × FS :=
  if MAX_FILENAME_LEN < name.length then (-ENAMETOOLONG, 0, s)
  else
    let r := osfs_new_inode s mode
    if r.1 ≠ 0 then (r.1, 0, r.2.2)
    else
      let a := osfs_add_dir_entry r.2.2 dirIno r.2.1 name
      if a.1 ≠ 0 then (a.1, 0, a.2)
      else (0, r.2.1, a.2)

/-! ### osfs_fill_super (super.c) and the concrete scenario states -/

def zeroInode : OsfsInode :=
  { i_ino := 0, i_size := 0, i_blocks := 0, i_mode := 0, i_links_count := 0,
    i_block := fun _ => 0 }

/-- The freshly mounted filesystem: the whole region is zeroed, the counters
are set to INODE_COUNT - 1 and DATA_BLOCK_COUNT, the root inode record
(number ROOT_INODE = 1, directory mode 0755, link count 2, size 0) is
initialised and its bit is set in the inode bitmap. -/
def osfs_fill_super : FS :=
  { inode_count := INODE_COUNT, block_count := DATA_BLOCK_COUNT,
    nr_free_inodes := INODE_COUNT - 1, nr_free_blocks := DATA_BLOCK_COUNT,
    inode_bitmap := setBit (fun _ => false) ROOT_INODE,
    block_bitmap := fun _ => false,
    inode_table := updTable (fun _ => zeroInode) ROOT_INODE
      { zeroInode with i_ino := ROOT_INODE, i_mode := S_IFDIR + 493, i_links_count := 2 },
    data := fun _ _ => 0 }

/-- The bytes of the filename in the concrete scenarios. -/
def nameA : List Nat := [97, 46, 116, 120, 116]

/-- S_IFREG with permission bits 0644. -/
def regMode : Nat := S_IFREG + 420

/-- Mount followed by one successful create of the regular file nameA in the
root directory: the new file gets inode number 2, and the root directory
entry block becomes physical block 0 (the allocator's first hand-out). -/
def mountedPlusCreate : FS :=
  (osfs_create osfs_fill_super ROOT_INODE nameA regMode).2.2

/-! ### Derived notions used by the correctness statements -/

/-- Number of logical blocks the byte range [0, len) spans. -/
def blocksSpanned (len : Nat) : Nat := (len + BLOCK_SIZE - 1) / BLOCK_SIZE

/-- Number of data-block allocations performed by writing the first i logical
blocks of a fresh file: one per block, plus the indirect index block as
soon as a block at or beyond OSFS_N_DIRECT is reached. -/
def allocCount (i : Nat) : Nat := if i ≤ OSFS_N_DIRECT then i else i + 1

/-- The physical block currently backing logical block j of a file that uses
only the direct and single-indirect tiers: the direct slot, or entry
j - OSFS_N_DIRECT of the indirect index block. -/
def physOf (s : FS) (ino j : Nat) : Nat :=
  if j < OSFS_N_DIRECT then (s.inode_table ino).i_block j
  else memReadU32b s.data ((s.inode_table ino).i_block OSFS_N_DIRECT)
    (4 * (j - OSFS_N_DIRECT))

/-- Invariant of the osfs_write loop on an initially fresh file being written
from offset 0: after the first i logical blocks of B have been written,
with C0 the initial number of zero bits of the block bitmap and N0 the
initial nr_free_blocks. -/
structure WInv (B : List Nat) (ino C0 N0 i : Nat) (s : FS) : Prop where
  bit0 : s.block_bitmap 0 = true
  hsize : (s.inode_table ino).i_size = 0
  hblocks : (s.inode_table ino).i_blocks = allocCount i
  hdirZero : ∀ j, i ≤ j → j < OSFS_N_DIRECT → (s.inode_table ino).i_block j = 0
  hphys : ∀ j, j < i → physOf s ino j ≠ 0 ∧ s.block_bitmap (physOf s ino j) = true
  hinj : ∀ j k, j < i → k < i → j ≠ k → physOf s ino j ≠ physOf s ino k
  htabLe : i ≤ OSFS_N_DIRECT → (s.inode_table ino).i_block OSFS_N_DIRECT = 0
  htabGt : OSFS_N_DIRECT < i →
    (s.inode_table ino).i_block OSFS_N_DIRECT ≠ 0 ∧
    s.block_bitmap ((s.inode_table ino).i_block OSFS_N_DIRECT) = true ∧
    ∀ j, j < i → physOf s ino j ≠ (s.inode_table ino).i_block OSFS_N_DIRECT
  htabZero : ∀ k, OSFS_N_DIRECT < i → i - OSFS_N_DIRECT ≤ k → k < OSFS_ADDR_PER_BLOCK →
    memReadU32b s.data ((s.inode_table ino).i_block OSFS_N_DIRECT) (4 * k) = 0
  hdata : ∀ j o, j < i → o < BLOCK_SIZE → BLOCK_SIZE * j + o < B.length →
    s.data (physOf s ino j) o = B.getD (BLOCK_SIZE * j + o) 0 % 256
  hcap : countZeroBits s.block_bitmap s.block_count + allocCount i = C0
  hnr : s.nr_free_blocks = dec32^[allocCount i] N0
  hbc : s.block_count ≤ U32

/-- What osfs_read needs after the write completed: size set, content of
every spanned block in place, every spanned pointer non-zero. -/
structure RInv (B : List Nat) (ino : Nat) (s : FS) : Prop where
  hsize : (s.inode_table ino).i_size = B.length
  hblocks : (s.inode_table ino).i_blocks ≠ 0
  hphys : ∀ j, BLOCK_SIZE * j < B.length → physOf s ino j ≠ 0
  htab : BLOCK_SIZE * OSFS_N_DIRECT < B.length →
    (s.inode_table ino).i_block OSFS_N_DIRECT ≠ 0
  hdata : ∀ j o, o < BLOCK_SIZE → BLOCK_SIZE * j + o < B.length →
    s.data (physOf s ino j) o = B.getD (BLOCK_SIZE * j + o) 0 % 256

/-! ### Concrete states used as witnesses -/

/-- An inode record whose pointer slots are all non-zero (slot j holds
100 + j), used to exhibit the tier selection of osfs_get_block. -/
def ndW : OsfsInode :=
  { i_ino := 3, i_size := 0, i_blocks := 0, i_mode := regMode, i_links_count := 1,
    i_block := fun j => 100 + j }

/-- A fully-populated state whose byte memory holds 1 everywhere, so every
4-byte index-table entry reads as 16843009. -/
def sW : FS :=
  { inode_count := 20, block_count := 2000, nr_free_inodes := 0, nr_free_blocks := 0,
    inode_bitmap := fun _ => true, block_bitmap := fun _ => true,
    inode_table := fun _ => ndW, data := fun _ _ => 1 }

/-- A 255-byte filename (the longest one the length check admits). -/
def name255 : List Nat := List.replicate 255 98

/-- 12 blocks of payload (exactly the direct capacity). -/
def B12 : List Nat := List.replicate (OSFS_N_DIRECT * BLOCK_SIZE) 7

/-- 12 blocks and one byte of payload (just past the direct capacity). -/
def B12p1 : List Nat := List.replicate (OSFS_N_DIRECT * BLOCK_SIZE + 1) 7

/-! ### Basic lemmas about the primitive updates -/

theorem updTable_same (t : Nat → OsfsInode) (i : Nat) (v : OsfsInode) :
    updTable t i v i = v := by
  simp [updTable]

theorem updTable_other (t : Nat → OsfsInode) (i : Nat) (v : OsfsInode) {j : Nat}
    (h : j ≠ i) : updTable t i v j = t j := by
  simp [updTable, h]

theorem updTable_self (t : Nat → OsfsInode) (i : Nat) : updTable t i (t i) = t := by
  funext j
  unfold updTable
  split
  · rename_i h
    rw [h]
  · rfl

theorem putInode_self (s : FS) (ino : Nat) : putInode s ino (s.inode_table ino) = s := by
  show { s with inode_table := updTable s.inode_table ino (s.inode_table ino) } = s
  rw [updTable_self]

theorem setBit_same (bm : Nat → Bool) (i : Nat) : setBit bm i i = true := by
  simp [setBit]

theorem setBit_other (bm : Nat → Bool) (i : Nat) {j : Nat} (h : j ≠ i) :
    setBit bm i j = bm j := by
  simp [setBit, h]

theorem setIBlock_same (nd : OsfsInode) (j phys : Nat) :
    (setIBlock nd j phys).i_block j = phys := by
  simp [setIBlock]

theorem setIBlock_other (nd : OsfsInode) (j phys : Nat) {k : Nat} (h : k ≠ j) :
    (setIBlock nd j phys).i_block k = nd.i_block k := by
  simp [setIBlock, h]

theorem dec32_eq_sub_one (x : Nat) (h1 : 0 < x) (h2 : x < U32) : dec32 x = x - 1 := by
  unfold dec32 U32 at *
  omega

theorem inc32_eq_add_one (x : Nat) (h : x + 1 < U32) : inc32 x = x + 1 := by
  unfold inc32 U32 at *
  omega

/-! ### scanFree and countZeroBits -/

theorem scanFree_spec (bm : Nat → Bool) :
    ∀ n start f, scanFree bm start n = some f →
      start ≤ f ∧ f < start + n ∧ bm f = false ∧ ∀ j, start ≤ j → j < f → bm j = true := by
  intro n
  induction n with
  | zero =>
      intro start f h
      simp [scanFree] at h
  | succ n ih =>
      intro start f h
      rw [scanFree] at h
      by_cases hb : bm start
      · rw [if_pos hb] at h
        obtain ⟨h1, h2, h3, h4⟩ := ih (start + 1) f h
        refine ⟨by omega, by omega, h3, ?_⟩
        intro j hj1 hj2
        rcases Nat.eq_or_lt_of_le hj1 with he | hl
        · rw [← he]
          exact hb
        · exact h4 j hl hj2
      · rw [if_neg hb] at h
        obtain rfl : start = f := by simpa using h
        exact ⟨le_refl _, by omega, by simpa using hb, fun j hj1 hj2 => by omega⟩

theorem scanFree_none (bm : Nat → Bool) :
    ∀ n start, scanFree bm start n = none → ∀ j, start ≤ j → j < start + n → bm j = true := by
  intro n
  induction n with
  | zero =>
      intro start _ j hj1 hj2
      omega
  | succ n ih =>
      intro start h j hj1 hj2
      rw [scanFree] at h
      by_cases hb : bm start
      · rw [if_pos hb] at h
        rcases Nat.eq_or_lt_of_le hj1 with he | hl
        · rw [← he]
          exact hb
        · exact ih (start + 1) h j hl (by omega)
      · rw [if_neg hb] at h
        simp at h

theorem countZeroBits_eq_zero (bm : Nat → Bool) (n : Nat)
    (h : ∀ j, j < n → bm j = true) : countZeroBits bm n = 0 := by
  induction n with
  | zero => rfl
  | succ n ih =>
      rw [countZeroBits, ih (fun j hj => h j (by omega)), h n (by omega)]
      simp

theorem scanFree_isSome (bm : Nat → Bool) (n : Nat) (h : 0 < countZeroBits bm n) :
    ∃ f, scanFree bm 0 n = some f := by
  cases hs : scanFree bm 0 n with
  | some f => exact ⟨f, rfl⟩
  | none =>
      have := countZeroBits_eq_zero bm n fun j hj =>
        scanFree_none bm n 0 hs j (by omega) (by omega)
      omega

theorem countZeroBits_setBit (bm : Nat → Bool) (f n : Nat) (hf : f < n)
    (hb : bm f = false) :
    countZeroBits (setBit bm f) n + 1 = countZeroBits bm n := by
  induction n with
  | zero => omega
  | succ n ih =>
      rcases Nat.lt_or_ge f n with hlt | hge
      · have hne : n ≠ f := by omega
        rw [countZeroBits, countZeroBits, setBit_other bm f hne]
        have := ih hlt
        cases bm n <;> simp_all
      · obtain rfl : f = n := by omega
        have hall : ∀ m, m ≤ f → countZeroBits (setBit bm f) m = countZeroBits bm m := by
          intro m
          induction m with
          | zero => intro _; rfl
          | succ m ihm =>
              intro hm
              rw [countZeroBits, countZeroBits, ihm (by omega),
                setBit_other bm f (show m ≠ f by omega)]
        rw [countZeroBits, countZeroBits, hall f (le_refl f), setBit_same, hb]
        simp

/-! ### Allocator specifications -/

theorem osfs_alloc_data_block_spec (s : FS)
    (h : 0 < countZeroBits s.block_bitmap s.block_count) :
    ∃ f, osfs_alloc_data_block s =
        .ok (f, { s with block_bitmap := setBit s.block_bitmap f,
                         nr_free_blocks := dec32 s.nr_free_blocks }) ∧
      f < s.block_count ∧ s.block_bitmap f = false ∧
      ∀ j, j < f → s.block_bitmap j = true := by
  obtain ⟨f, hf⟩ := scanFree_isSome s.block_bitmap s.block_count h
  obtain ⟨h1, h2, h3, h4⟩ := scanFree_spec s.block_bitmap s.block_count 0 f hf
  refine ⟨f, ?_, by omega, h3, fun j hj => h4 j (by omega) hj⟩
  unfold osfs_alloc_data_block
  rw [hf]

/-! ### Byte-memory lemmas -/

theorem memReadU32b_lt (m : Nat → Nat → Nat) (blk off : Nat) :
    memReadU32b m blk off < U32 := by
  unfold memReadU32b U32
  have h0 : m blk off % 256 < 256 := Nat.mod_lt _ (by decide)
  have h1 : m blk (off + 1) % 256 < 256 := Nat.mod_lt _ (by decide)
  have h2 : m blk (off + 2) % 256 < 256 := Nat.mod_lt _ (by decide)
  have h3 : m blk (off + 3) % 256 < 256 := Nat.mod_lt _ (by decide)
  omega

theorem memWriteU32b_at (m : Nat → Nat → Nat) (blk off v k : Nat) (hk : k < 4) :
    memWriteU32b m blk off v blk (off + k) = v / 256 ^ k % 256 := by
  unfold memWriteU32b
  rw [if_pos ⟨rfl, by omega, by omega⟩, show off + k - off = k by omega]

theorem memWriteU32b_outside (m : Nat → Nat → Nat) (blk off v b o : Nat)
    (h : b ≠ blk ∨ o < off ∨ off + 4 ≤ o) :
    memWriteU32b m blk off v b o = m b o := by
  unfold memWriteU32b
  rw [if_neg]
  rintro ⟨rfl, h1, h2⟩
  rcases h with h | h | h
  · exact h rfl
  · omega
  · omega

theorem memReadU32b_writeU32b_same (m : Nat → Nat → Nat) (blk off v : Nat) (hv : v < U32) :
    memReadU32b (memWriteU32b m blk off v) blk off = v := by
  have e0 := memWriteU32b_at m blk off v 0 (by decide)
  have e1 := memWriteU32b_at m blk off v 1 (by decide)
  have e2 := memWriteU32b_at m blk off v 2 (by decide)
  have e3 := memWriteU32b_at m blk off v 3 (by decide)
  rw [show off + 0 = off by omega] at e0
  unfold memReadU32b
  rw [e0, e1, e2, e3]
  simp only [pow_zero, pow_one, Nat.div_one,
    show (256 : Nat) ^ 2 = 65536 by norm_num, show (256 : Nat) ^ 3 = 16777216 by norm_num]
  unfold U32 at hv
  omega

theorem memReadU32b_writeU32b_other (m : Nat → Nat → Nat) (blk off v b o : Nat)
    (h : b ≠ blk ∨ o + 4 ≤ off ∨ off + 4 ≤ o) :
    memReadU32b (memWriteU32b m blk off v) b o = memReadU32b m b o := by
  have hout : ∀ o', o ≤ o' → o' < o + 4 → memWriteU32b m blk off v b o' = m b o' := by
    intro o' ho1 ho2
    apply memWriteU32b_outside
    rcases h with h | h | h
    · exact Or.inl h
    · exact Or.inr (Or.inl (by omega))
    · exact Or.inr (Or.inr (by omega))
  unfold memReadU32b
  rw [hout o (by omega) (by omega), hout (o + 1) (by omega) (by omega),
    hout (o + 2) (by omega) (by omega), hout (o + 3) (by omega) (by omega)]

theorem memZeroBlock_at (m : Nat → Nat → Nat) (blk o : Nat) (h : o < BLOCK_SIZE) :
    memZeroBlock m blk blk o = 0 := by
  unfold memZeroBlock
  rw [if_pos ⟨rfl, h⟩]

theorem memZeroBlock_other (m : Nat → Nat → Nat) (blk b o : Nat) (h : b ≠ blk) :
    memZeroBlock m blk b o = m b o := by
  unfold memZeroBlock
  rw [if_neg]
  rintro ⟨rfl, _⟩
  exact h rfl

theorem memReadU32b_zeroBlock_same (m : Nat → Nat → Nat) (blk off : Nat)
    (h : off + 4 ≤ BLOCK_SIZE) :
    memReadU32b (memZeroBlock m blk) blk off = 0 := by
  unfold memReadU32b
  rw [memZeroBlock_at m blk off (by omega), memZeroBlock_at m blk (off + 1) (by omega),
    memZeroBlock_at m blk (off + 2) (by omega), memZeroBlock_at m blk (off + 3) (by omega)]

theorem memReadU32b_zeroBlock_other (m : Nat → Nat → Nat) (blk b off : Nat) (h : b ≠ blk) :
    memReadU32b (memZeroBlock m blk) b off = memReadU32b m b off := by
  unfold memReadU32b
  rw [memZeroBlock_other m blk b off h, memZeroBlock_other m blk b (off + 1) h,
    memZeroBlock_other m blk b (off + 2) h, memZeroBlock_other m blk b (off + 3) h]

theorem memCopyIn_outside (m : Nat → Nat → Nat) (blk off : Nat) (buf : List Nat)
    (st n b o : Nat) (h : b ≠ blk ∨ o < off ∨ off + n ≤ o) :
    memCopyIn m blk off buf st n b o = m b o := by
  unfold memCopyIn
  rw [if_neg]
  rintro ⟨rfl, h1, h2⟩
  rcases h with h | h | h
  · exact h rfl
  · omega
  · omega

theorem memCopyIn_at (m : Nat → Nat → Nat) (blk off : Nat) (buf : List Nat)
    (st n o : Nat) (h1 : off ≤ o) (h2 : o < off + n) :
    memCopyIn m blk off buf st n blk o = buf.getD (st + (o - off)) 0 % 256 := by
  unfold memCopyIn
  rw [if_pos ⟨rfl, h1, h2⟩]

theorem memReadU32b_copyIn_other (m : Nat → Nat → Nat) (blk off : Nat) (buf : List Nat)
    (st n b o : Nat) (h : b ≠ blk) :
    memReadU32b (memCopyIn m blk off buf st n) b o = memReadU32b m b o := by
  unfold memReadU32b
  rw [memCopyIn_outside m blk off buf st n b o (Or.inl h),
    memCopyIn_outside m blk off buf st n b (o + 1) (Or.inl h),
    memCopyIn_outside m blk off buf st n b (o + 2) (Or.inl h),
    memCopyIn_outside m blk off buf st n b (o + 3) (Or.inl h)]

theorem osfs_get_block_read_direct (s : FS) (ino b : Nat) (hb : b < OSFS_N_DIRECT) :
    osfs_get_block s ino b false = (0, (s.inode_table ino).i_block b, s) := by
  unfold osfs_get_block
  rw [if_pos hb, if_neg (by simp)]

theorem osfs_get_block_read_indirect (s : FS) (ino b : Nat)
    (hb1 : OSFS_N_DIRECT ≤ b) (hb2 : b - OSFS_N_DIRECT < OSFS_ADDR_PER_BLOCK)
    (hT : (s.inode_table ino).i_block OSFS_N_DIRECT ≠ 0) :
    osfs_get_block s ino b false =
      (0, memReadU32b s.data ((s.inode_table ino).i_block OSFS_N_DIRECT)
        (4 * (b - OSFS_N_DIRECT)), s) := by
  unfold osfs_get_block
  rw [if_neg (Nat.not_lt.mpr hb1)]
  dsimp only
  rw [if_pos hb2, if_neg hT]
  dsimp only
  rw [if_neg (by simp)]

theorem osfs_get_block_read_dindirect (s : FS) (ino b : Nat)
    (hb1 : OSFS_N_DIRECT + OSFS_ADDR_PER_BLOCK ≤ b)
    (hb2 : b - OSFS_N_DIRECT - OSFS_ADDR_PER_BLOCK <
      OSFS_ADDR_PER_BLOCK * OSFS_ADDR_PER_BLOCK)
    (hT2 : (s.inode_table ino).i_block (OSFS_N_DIRECT + 1) ≠ 0)
    (hOuter : memReadU32b s.data ((s.inode_table ino).i_block (OSFS_N_DIRECT + 1))
      (4 * ((b - OSFS_N_DIRECT - OSFS_ADDR_PER_BLOCK) / OSFS_ADDR_PER_BLOCK)) ≠ 0) :
    osfs_get_block s ino b false =
      (0, memReadU32b s.data
        (memReadU32b s.data ((s.inode_table ino).i_block (OSFS_N_DIRECT + 1))
          (4 * ((b - OSFS_N_DIRECT - OSFS_ADDR_PER_BLOCK) / OSFS_ADDR_PER_BLOCK)))
        (4 * ((b - OSFS_N_DIRECT - OSFS_ADDR_PER_BLOCK) % OSFS_ADDR_PER_BLOCK)), s) := by
  have hb1' : 12 + 1024 ≤ b := hb1
  unfold osfs_get_block
  rw [if_neg (show ¬ (b < OSFS_N_DIRECT) from by omega)]
  dsimp only
  rw [if_neg (show ¬ (b - OSFS_N_DIRECT < OSFS_ADDR_PER_BLOCK) from by
    show ¬ (b - 12 < 1024)
    omega)]
  rw [if_pos hb2, if_neg hT2]
  dsimp only
  rw [if_neg hOuter]
  dsimp only
  rw [if_neg (by simp)]

theorem osfs_get_block_alloc_direct (s s1 : FS) (ino b f : Nat)
    (hb : b < OSFS_N_DIRECT) (h0 : (s.inode_table ino).i_block b = 0)
    (hals : osfs_alloc_data_block s = .ok (f, s1)) :
    osfs_get_block s ino b true =
      (0, f, putInode s1 ino (bumpBlocks (setIBlock (s1.inode_table ino) b f))) := by
  unfold osfs_get_block
  rw [if_pos hb, if_pos ⟨h0, rfl⟩, hals]
  dsimp only
  simp [putInode, updTable_same, bumpBlocks, setIBlock]

theorem osfs_get_block_alloc_indirect (s s3 : FS) (ino b f2 : Nat)
    (hb1 : OSFS_N_DIRECT ≤ b) (hb2 : b - OSFS_N_DIRECT < OSFS_ADDR_PER_BLOCK)
    (hT : (s.inode_table ino).i_block OSFS_N_DIRECT ≠ 0)
    (hentry : memReadU32b s.data ((s.inode_table ino).i_block OSFS_N_DIRECT)
      (4 * (b - OSFS_N_DIRECT)) = 0)
    (hals : osfs_alloc_data_block s = .ok (f2, s3))
    (hf2 : f2 < U32) :
    osfs_get_block s ino b true =
      (0, f2, putData (putInode s3 ino (bumpBlocks (s3.inode_table ino)))
        (memWriteU32b s3.data ((s.inode_table ino).i_block OSFS_N_DIRECT)
          (4 * (b - OSFS_N_DIRECT)) f2)) := by
  unfold osfs_get_block
  rw [if_neg (Nat.not_lt.mpr hb1)]
  dsimp only
  rw [if_pos hb2, if_neg hT]
  dsimp only
  rw [if_pos ⟨hentry, rfl⟩, hals]
  dsimp only [putData]
  rw [memReadU32b_writeU32b_same _ _ _ _ hf2]

theorem osfs_get_block_alloc_indirect_first (s s1 s3 : FS) (ino b T f2 : Nat)
    (hb1 : OSFS_N_DIRECT ≤ b) (hb2 : b - OSFS_N_DIRECT < OSFS_ADDR_PER_BLOCK)
    (hT0 : (s.inode_table ino).i_block OSFS_N_DIRECT = 0)
    (hals1 : osfs_alloc_data_block s = .ok (T, s1))
    (hals2 : osfs_alloc_data_block
      (putData (putInode s1 ino (bumpBlocks (setIBlock (s1.inode_table ino) OSFS_N_DIRECT T)))
        (memZeroBlock s1.data T)) = .ok (f2, s3))
    (hf2 : f2 < U32) :
    osfs_get_block s ino b true =
      (0, f2, putData (putInode s3 ino (bumpBlocks (s3.inode_table ino)))
        (memWriteU32b s3.data T (4 * (b - OSFS_N_DIRECT)) f2)) := by
  have hb2' : b - 12 < 1024 := hb2
  unfold osfs_get_block
  rw [if_neg (Nat.not_lt.mpr hb1)]
  dsimp only
  rw [if_pos hb2, if_pos hT0, hals1]
  dsimp only
  rw [if_neg (show ¬ (true = false) from by simp)]
  dsimp only
  rw [show ((putData
        (putInode s1 ino (bumpBlocks (setIBlock (s1.inode_table ino) OSFS_N_DIRECT T)))
        (memZeroBlock s1.data T)).inode_table ino).i_block OSFS_N_DIRECT = T from by
    simp [putData, putInode, updTable_same, bumpBlocks, setIBlock]]
  rw [show (putData
        (putInode s1 ino (bumpBlocks (setIBlock (s1.inode_table ino) OSFS_N_DIRECT T)))
        (memZeroBlock s1.data T)).data = memZeroBlock s1.data T from rfl]
  rw [if_pos ⟨memReadU32b_zeroBlock_same s1.data T (4 * (b - OSFS_N_DIRECT))
    (show 4 * (b - 12) + 4 ≤ 4096 from by omega), rfl⟩]
  rw [hals2]
  dsimp only [putData]
  rw [memReadU32b_writeU32b_same _ _ _ _ hf2]

/-! ### Further helper lemmas about osfs_get_block and the allocator -/

theorem osfs_get_block_too_big (s : FS) (ino b : Nat) (c : Bool)
    (hb : OSFS_N_DIRECT + OSFS_ADDR_PER_BLOCK +
      OSFS_ADDR_PER_BLOCK * OSFS_ADDR_PER_BLOCK ≤ b) :
    osfs_get_block s ino b c = (-EFBIG, 0, s) := by
  have hb' : 12 + 1024 + 1024 * 1024 ≤ b := hb
  unfold osfs_get_block
  rw [if_neg (show ¬ (b < OSFS_N_DIRECT) from by omega)]
  dsimp only
  rw [if_neg (show ¬ (b - OSFS_N_DIRECT < OSFS_ADDR_PER_BLOCK) from by
    show ¬ (b - 12 < 1024)
    omega)]
  rw [if_neg (show ¬ (b - OSFS_N_DIRECT - OSFS_ADDR_PER_BLOCK <
      OSFS_ADDR_PER_BLOCK * OSFS_ADDR_PER_BLOCK) from by
    show ¬ (b - 12 - 1024 < 1024 * 1024)
    omega)]

theorem osfs_alloc_data_block_inv (s : FS) (f : Nat) (s1 : FS)
    (h : osfs_alloc_data_block s = .ok (f, s1)) :
    s1 = { s with block_bitmap := setBit s.block_bitmap f,
                  nr_free_blocks := dec32 s.nr_free_blocks } ∧
    scanFree s.block_bitmap 0 s.block_count = some f := by
  unfold osfs_alloc_data_block at h
  cases hs : scanFree s.block_bitmap 0 s.block_count with
  | none => rw [hs] at h; simp at h
  | some g =>
      rw [hs] at h
      simp only [Except.ok.injEq, Prod.mk.injEq] at h
      obtain ⟨rfl, h2⟩ := h
      exact ⟨h2.symm, rfl⟩

/-! ### Claim theorems (first group) -/

set_option maxRecDepth 8000

/-- C4: on a freshly mounted instance the root inode number is 1 and its bit
is set, the root directory entry count (size / entry size) is 0,
nr_free_inodes = inode_count - 1 and nr_free_blocks = block_count. -/
theorem c4_fresh_mount :
    (osfs_fill_super.inode_table ROOT_INODE).i_ino = ROOT_INODE ∧
    osfs_fill_super.inode_bitmap ROOT_INODE = true ∧
    (osfs_fill_super.inode_table ROOT_INODE).i_size / DIR_ENTRY_SIZE = 0 ∧
    osfs_fill_super.nr_free_inodes = osfs_fill_super.inode_count - 1 ∧
    osfs_fill_super.nr_free_blocks = osfs_fill_super.block_count := by
  decide

/-- C1 (code bug): the counters-match-bitmaps invariant holds on the fresh
mount but is broken by a single successful create, because osfs_new_inode
decrements nr_free_inodes a second time after osfs_get_free_inode already
decremented it: after one create exactly one new inode-bitmap bit is set
(zero bits 19 -> 18) while the counter drops from 19 to 17.  The
block-side invariant still holds. -/
theorem c1_create_double_decrements_free_inodes :
    countZeroBits osfs_fill_super.inode_bitmap INODE_COUNT =
      osfs_fill_super.nr_free_inodes ∧
    countZeroBits osfs_fill_super.block_bitmap DATA_BLOCK_COUNT =
      osfs_fill_super.nr_free_blocks ∧
    (osfs_create osfs_fill_super ROOT_INODE nameA regMode).1 = 0 ∧
    countZeroBits mountedPlusCreate.inode_bitmap INODE_COUNT = 18 ∧
    mountedPlusCreate.nr_free_inodes = 17 ∧
    countZeroBits mountedPlusCreate.block_bitmap DATA_BLOCK_COUNT =
      mountedPlusCreate.nr_free_blocks := by
  decide

/-- C3 (code bug): osfs_alloc_data_block scans the block bitmap from index 0,
so its very first hand-out is physical block number 0, and the first
create stores it into the root directory's direct slot i_block[0]: a
pointer slot that holds 0 while its block is allocated (i_blocks = 1 and
bit 0 set), making a zero pointer ambiguous. -/
theorem c3_alloc_hands_out_block_zero :
    allocResultBlock (osfs_alloc_data_block osfs_fill_super) = some 0 ∧
    (osfs_create osfs_fill_super ROOT_INODE nameA regMode).1 = 0 ∧
    (mountedPlusCreate.inode_table ROOT_INODE).i_blocks = 1 ∧
    (mountedPlusCreate.inode_table ROOT_INODE).i_block 0 = 0 ∧
    mountedPlusCreate.block_bitmap 0 = true := by
  decide

/-- C10 (code bug): the length check of osfs_create admits a name of length
exactly MAX_FILENAME_LEN = 255 (it only rejects lengths > 255), and the
entry store then writes the NUL terminator at filename index 255 -- one
past the 255-byte filename array (into the struct's padding byte), so the
terminator index is not < 255; such a create actually succeeds. -/
theorem c10_terminator_at_index_255 :
    ¬ (MAX_FILENAME_LEN < name255.length) ∧
    dirEntryTerminatorOff 0 name255.length = 255 ∧
    ¬ (dirEntryTerminatorOff 0 name255.length < FILENAME_FIELD_BYTES) ∧
    (osfs_create mountedPlusCreate ROOT_INODE name255 regMode).1 = 0 := by
  decide

/-- C6 counterexample: on a freshly created file (inode 2 of the concrete
mounted state) every direct slot is a hole, yet osfs_get_block with
create=false returns 0 (success) with phys_block = 0, not -ENOENT. -/
theorem c6_counterexample :
    (mountedPlusCreate.inode_table 2).i_block 0 = 0 ∧
    (osfs_get_block mountedPlusCreate 2 0 false).1 = 0 ∧
    (osfs_get_block mountedPlusCreate 2 0 false).2.1 = 0 ∧
    (0 : Int) ≠ -ENOENT := by
  decide

/-- C6 (amended): for a direct-tier hole, create=false resolves to success
with physical block 0 (which the read path then treats as a hole,
synthesising zeros), and create=true allocates the first free data block,
stores it into the slot, marks its bitmap bit and bumps i_blocks. -/
theorem c6_direct_hole_behaviour (s : FS) (ino b : Nat) (hb : b < OSFS_N_DIRECT)
    (h0 : (s.inode_table ino).i_block b = 0) :
    osfs_get_block s ino b false = (0, 0, s) ∧
    (∀ f s1, osfs_alloc_data_block s = .ok (f, s1) →
      osfs_get_block s ino b true =
        (0, f, putInode s1 ino (bumpBlocks (setIBlock (s1.inode_table ino) b f))) ∧
      ((putInode s1 ino (bumpBlocks (setIBlock (s1.inode_table ino) b f))).inode_table
        ino).i_block b = f ∧
      (putInode s1 ino (bumpBlocks (setIBlock (s1.inode_table ino) b f))).block_bitmap f
        = true ∧
      ((putInode s1 ino (bumpBlocks (setIBlock (s1.inode_table ino) b f))).inode_table
        ino).i_blocks = (s.inode_table ino).i_blocks + 1) := by
  constructor
  · rw [osfs_get_block_read_direct s ino b hb, h0]
  · intro f s1 hals
    obtain ⟨hs1, _⟩ := osfs_alloc_data_block_inv s f s1 hals
    refine ⟨osfs_get_block_alloc_direct s s1 ino b f hb h0 hals, ?_, ?_, ?_⟩
    · simp [putInode, updTable_same, bumpBlocks, setIBlock]
    · show s1.block_bitmap f = true
      rw [hs1]
      exact setBit_same s.block_bitmap f
    · simp only [putInode, updTable_same, bumpBlocks]
      rw [hs1]
      simp [setIBlock]

/-- C6 witness: the amended behaviour at the concrete freshly created file:
reading the hole at logical block 0 gives (0, 0, state), and writing
there allocates physical block 1 (block 0 already belongs to the root
directory). -/
theorem c6_direct_hole_behaviour_witness :
    osfs_get_block mountedPlusCreate 2 0 false = (0, 0, mountedPlusCreate) ∧
    (osfs_get_block mountedPlusCreate 2 0 true).2.1 = 1 := by
  have h := c6_direct_hole_behaviour mountedPlusCreate 2 0 (by decide) (by decide)
  refine ⟨h.1, ?_⟩
  have hals : osfs_alloc_data_block mountedPlusCreate =
      .ok (1, { mountedPlusCreate with
                  block_bitmap := setBit mountedPlusCreate.block_bitmap 1,
                  nr_free_blocks := dec32 mountedPlusCreate.nr_free_blocks }) := by
    unfold osfs_alloc_data_block
    rw [show scanFree mountedPlusCreate.block_bitmap 0 mountedPlusCreate.block_count =
      some 1 from by decide]
  rw [(h.2 1 _ hals).1]

/-- C5: osfs_get_block selects the addressing tier purely by range: a direct
slot for b < N_DIRECT; entry b - N_DIRECT of the indirect table when that
offset is < ADDR_PER_BLOCK; the (outer, inner) = (q / ADDR_PER_BLOCK,
q % ADDR_PER_BLOCK) entries of the double-indirect tables for
q = b - N_DIRECT - ADDR_PER_BLOCK < ADDR_PER_BLOCK^2; and -EFBIG for
every b at or beyond N_DIRECT + ADDR_PER_BLOCK + ADDR_PER_BLOCK^2
(read mode shown for the three tiers; the FileTooBig case holds for
either mode). -/
theorem c5_tier_selection (s : FS) (ino b : Nat) (c : Bool) :
    (b < OSFS_N_DIRECT →
      osfs_get_block s ino b false = (0, (s.inode_table ino).i_block b, s)) ∧
    (OSFS_N_DIRECT ≤ b → b - OSFS_N_DIRECT < OSFS_ADDR_PER_BLOCK →
      (s.inode_table ino).i_block OSFS_N_DIRECT ≠ 0 →
      osfs_get_block s ino b false =
        (0, memReadU32b s.data ((s.inode_table ino).i_block OSFS_N_DIRECT)
          (4 * (b - OSFS_N_DIRECT)), s)) ∧
    (OSFS_N_DIRECT + OSFS_ADDR_PER_BLOCK ≤ b →
      b - OSFS_N_DIRECT - OSFS_ADDR_PER_BLOCK <
        OSFS_ADDR_PER_BLOCK * OSFS_ADDR_PER_BLOCK →
      (s.inode_table ino).i_block (OSFS_N_DIRECT + 1) ≠ 0 →
      memReadU32b s.data ((s.inode_table ino).i_block (OSFS_N_DIRECT + 1))
        (4 * ((b - OSFS_N_DIRECT - OSFS_ADDR_PER_BLOCK) / OSFS_ADDR_PER_BLOCK)) ≠ 0 →
      osfs_get_block s ino b false =
        (0, memReadU32b s.data
          (memReadU32b s.data ((s.inode_table ino).i_block (OSFS_N_DIRECT + 1))
            (4 * ((b - OSFS_N_DIRECT - OSFS_ADDR_PER_BLOCK) / OSFS_ADDR_PER_BLOCK)))
          (4 * ((b - OSFS_N_DIRECT - OSFS_ADDR_PER_BLOCK) % OSFS_ADDR_PER_BLOCK)), s)) ∧
    (OSFS_N_DIRECT + OSFS_ADDR_PER_BLOCK +
        OSFS_ADDR_PER_BLOCK * OSFS_ADDR_PER_BLOCK ≤ b →
      osfs_get_block s ino b c = (-EFBIG, 0, s)) :=
  ⟨fun h => osfs_get_block_read_direct s ino b h,
   fun h1 h2 h3 => osfs_get_block_read_indirect s ino b h1 h2 h3,
   fun h1 h2 h3 h4 => osfs_get_block_read_dindirect s ino b h1 h2 h3 h4,
   fun h => osfs_get_block_too_big s ino b c h⟩

/-- C5 witness: the four tiers exercised on the concrete fully-populated
state sW: logical block 5 resolves through direct slot 5 (= 105), block
20 through indirect entry 8 of table block 112, block 2000 through the
double-indirect tables, and block 1049612 = 12 + 1024 + 1024 * 1024 is
FileTooBig. -/
theorem c5_tier_selection_witness :
    (osfs_get_block sW 3 5 false).2.1 = 105 ∧
    (osfs_get_block sW 3 20 false).2.1 = 16843009 ∧
    (osfs_get_block sW 3 2000 false).2.1 = 16843009 ∧
    (osfs_get_block sW 3 1049612 false).1 = -EFBIG := by
  refine ⟨?_, ?_, ?_, ?_⟩
  · rw [(c5_tier_selection sW 3 5 false).1 (by decide)]
    decide
  · rw [(c5_tier_selection sW 3 20 false).2.1 (by decide) (by decide) (by decide)]
    decide
  · rw [(c5_tier_selection sW 3 2000 false).2.2.1 (by decide) (by decide) (by decide)
      (by decide)]
    decide
  · rw [(c5_tier_selection sW 3 1049612 false).2.2.2 (by decide)]

/-! ### Lemmas about osfs_free_inode_blocks -/

theorem freeDirectStep_slot (ino : Nat) (s : FS) (a j : Nat) :
    ((freeDirectStep ino s a).inode_table ino).i_block j =
      if j = a then 0 else (s.inode_table ino).i_block j := by
  unfold freeDirectStep
  dsimp only
  by_cases h : (s.inode_table ino).i_block a ≠ 0
  · rw [if_pos h]
    by_cases hj : j = a
    · subst hj
      simp [putInode, updTable_same, setIBlock]
    · simp [putInode, updTable_same, setIBlock, hj]
  · rw [if_neg h]
    push_neg at h
    by_cases hj : j = a
    · subst hj
      simp [h]
    · simp [hj]

theorem foldl_freeDirectStep_slot (ino : Nat) (l : List Nat) :
    ∀ (s : FS) (j : Nat), ((l.foldl (freeDirectStep ino) s).inode_table ino).i_block j =
      if j ∈ l then 0 else (s.inode_table ino).i_block j := by
  induction l with
  | nil => intro s j; simp
  | cons a t ih =>
      intro s j
      rw [List.foldl_cons, ih, freeDirectStep_slot]
      by_cases hj : j ∈ t
      · simp [hj]
      · by_cases hja : j = a
        · simp [hja, hj]
        · simp [hja, hj]

theorem foldl_freeDirectStep_of_zero (ino : Nat) (l : List Nat) :
    ∀ s : FS, (∀ i ∈ l, (s.inode_table ino).i_block i = 0) →
      l.foldl (freeDirectStep ino) s = s := by
  induction l with
  | nil => intro s _; rfl
  | cons a t ih =>
      intro s h
      rw [List.foldl_cons]
      have hstep : freeDirectStep ino s a = s := by
        unfold freeDirectStep
        dsimp only
        rw [if_neg (by simp [h a (List.mem_cons_self a t)])]
      rw [hstep]
      exact ih s fun i hi => h i (List.mem_cons_of_mem a hi)

theorem foldl_freeIndirectEntryStep_table (T : Nat) (l : List Nat) :
    ∀ s : FS, (l.foldl (freeIndirectEntryStep T) s).inode_table = s.inode_table := by
  induction l with
  | nil => intro s; rfl
  | cons a t ih =>
      intro s
      rw [List.foldl_cons, ih]
      unfold freeIndirectEntryStep
      split <;> rfl

theorem foldl_freeDIndirectEntryStep_table (T2 : Nat) (l : List Nat) :
    ∀ s : FS, (l.foldl (freeDIndirectEntryStep T2) s).inode_table = s.inode_table := by
  induction l with
  | nil => intro s; rfl
  | cons a t ih =>
      intro s
      rw [List.foldl_cons, ih]
      unfold freeDIndirectEntryStep
      dsimp only
      split
      · rw [show ∀ u : FS, ∀ e : Nat, (osfs_free_data_block u e).inode_table = u.inode_table
          from fun _ _ => rfl]
        rw [foldl_freeIndirectEntryStep_table]
      · rfl

theorem osfs_free_direct_slot (s : FS) (ino j : Nat) :
    ((osfs_free_direct s ino).inode_table ino).i_block j =
      if j < OSFS_N_DIRECT then 0 else (s.inode_table ino).i_block j := by
  unfold osfs_free_direct
  rw [foldl_freeDirectStep_slot]
  by_cases hj : j < OSFS_N_DIRECT
  · rw [if_pos (List.mem_range.mpr hj), if_pos hj]
  · rw [if_neg (by simp [List.mem_range, hj]), if_neg hj]

theorem osfs_free_direct_of_zero (s : FS) (ino : Nat)
    (h : ∀ i, i < OSFS_N_DIRECT → (s.inode_table ino).i_block i = 0) :
    osfs_free_direct s ino = s :=
  foldl_freeDirectStep_of_zero ino _ s fun i hi => h i (List.mem_range.mp hi)

theorem osfs_free_indirect_slot (s : FS) (ino j : Nat) :
    ((osfs_free_indirect s ino).inode_table ino).i_block j =
      if j = OSFS_N_DIRECT then 0 else (s.inode_table ino).i_block j := by
  unfold osfs_free_indirect
  dsimp only
  split
  · simp only [putInode, updTable_same]
    rw [show ∀ u : FS, ∀ e : Nat, (osfs_free_data_block u e).inode_table = u.inode_table
      from fun _ _ => rfl, foldl_freeIndirectEntryStep_table]
    by_cases hj : j = OSFS_N_DIRECT
    · subst hj
      simp [setIBlock]
    · rw [setIBlock_other _ _ _ hj, if_neg hj]
  · rename_i h
    push_neg at h
    by_cases hj : j = OSFS_N_DIRECT
    · subst hj
      rw [if_pos rfl, h]
    · rw [if_neg hj]

theorem osfs_free_indirect_of_zero (s : FS) (ino : Nat)
    (h : (s.inode_table ino).i_block OSFS_N_DIRECT = 0) :
    osfs_free_indirect s ino = s := by
  unfold osfs_free_indirect
  rw [if_neg (by simp [h])]

theorem osfs_free_dindirect_slot (s : FS) (ino j : Nat) :
    ((osfs_free_dindirect s ino).inode_table ino).i_block j =
      if j = OSFS_N_DIRECT + 1 then 0 else (s.inode_table ino).i_block j := by
  unfold osfs_free_dindirect
  dsimp only
  split
  · simp only [putInode, updTable_same]
    rw [show ∀ u : FS, ∀ e : Nat, (osfs_free_data_block u e).inode_table = u.inode_table
      from fun _ _ => rfl, foldl_freeDIndirectEntryStep_table]
    by_cases hj : j = OSFS_N_DIRECT + 1
    · subst hj
      simp [setIBlock]
    · rw [setIBlock_other _ _ _ hj, if_neg hj]
  · rename_i h
    push_neg at h
    by_cases hj : j = OSFS_N_DIRECT + 1
    · subst hj
      rw [if_pos rfl, h]
    · rw [if_neg hj]

theorem osfs_free_dindirect_of_zero (s : FS) (ino : Nat)
    (h : (s.inode_table ino).i_block (OSFS_N_DIRECT + 1) = 0) :
    osfs_free_dindirect s ino = s := by
  unfold osfs_free_dindirect
  rw [if_neg (by simp [h])]

theorem setBlocksCount_i_block (nd : OsfsInode) (n : Nat) :
    (setBlocksCount nd n).i_block = nd.i_block := rfl

theorem setBlocksCount_i_blocks (nd : OsfsInode) (n : Nat) :
    (setBlocksCount nd n).i_blocks = n := rfl

theorem osfs_free_inode_blocks_slot (s : FS) (ino j : Nat) (hj : j < OSFS_N_BLOCKS) :
    ((osfs_free_inode_blocks s ino).inode_table ino).i_block j = 0 := by
  have hj' : j < 14 := hj
  unfold osfs_free_inode_blocks
  dsimp only
  simp only [putInode, updTable_same]
  rw [setBlocksCount_i_block]
  rw [osfs_free_dindirect_slot, osfs_free_indirect_slot, osfs_free_direct_slot]
  by_cases h13 : j = OSFS_N_DIRECT + 1
  · rw [if_pos h13]
  · rw [if_neg h13]
    by_cases h12 : j = OSFS_N_DIRECT
    · rw [if_pos h12]
    · rw [if_neg h12, if_pos (by
        have e12 : OSFS_N_DIRECT = 12 := rfl
        rw [e12] at h12 ⊢
        have e13 : OSFS_N_DIRECT + 1 = 13 := rfl
        rw [e13] at h13
        omega)]

theorem osfs_free_inode_blocks_i_blocks (s : FS) (ino : Nat) :
    ((osfs_free_inode_blocks s ino).inode_table ino).i_blocks = 0 := by
  unfold osfs_free_inode_blocks
  simp [putInode, updTable_same, setBlocksCount_i_blocks]

theorem OsfsInode_eta_blocks (r : OsfsInode) (h : r.i_blocks = 0) :
    setBlocksCount r 0 = r := by
  unfold setBlocksCount
  cases r
  simp_all

theorem osfs_free_inode_blocks_clean (s : FS) (ino : Nat)
    (h : ∀ j, j < OSFS_N_BLOCKS → (s.inode_table ino).i_block j = 0) :
    osfs_free_inode_blocks s ino =
      putInode s ino (setBlocksCount (s.inode_table ino) 0) := by
  unfold osfs_free_inode_blocks
  rw [osfs_free_direct_of_zero s ino (fun i hi => h i (by
      have e : OSFS_N_DIRECT = 12 := rfl
      rw [e] at hi
      show i < 14
      omega)),
    osfs_free_indirect_of_zero s ino (h OSFS_N_DIRECT (by decide)),
    osfs_free_dindirect_of_zero s ino (h (OSFS_N_DIRECT + 1) (by decide))]

/-- C8: osfs_free_inode_blocks is idempotent -- a second call on the same
inode leaves the state exactly as after the first call (no bitmap bit,
counter, or memory change); and on an inode whose pointer slots are all
zero a call is a no-op apart from resetting i_blocks to 0 (so it never
double-decrements nr_free_blocks). -/
theorem c8_free_inode_blocks_idempotent (s : FS) (ino : Nat) :
    osfs_free_inode_blocks (osfs_free_inode_blocks s ino) ino =
      osfs_free_inode_blocks s ino ∧
    ((∀ j, j < OSFS_N_BLOCKS → (s.inode_table ino).i_block j = 0) →
      osfs_free_inode_blocks s ino =
        putInode s ino (setBlocksCount (s.inode_table ino) 0) ∧
      ((osfs_free_inode_blocks s ino).inode_table ino).i_blocks = 0 ∧
      (osfs_free_inode_blocks s ino).nr_free_blocks = s.nr_free_blocks ∧
      (osfs_free_inode_blocks s ino).block_bitmap = s.block_bitmap ∧
      (osfs_free_inode_blocks s ino).data = s.data) := by
  constructor
  · rw [osfs_free_inode_blocks_clean (osfs_free_inode_blocks s ino) ino
      (fun j hj => osfs_free_inode_blocks_slot s ino j hj)]
    rw [OsfsInode_eta_blocks _ (osfs_free_inode_blocks_i_blocks s ino)]
    exact putInode_self _ ino
  · intro h
    have hclean := osfs_free_inode_blocks_clean s ino h
    refine ⟨hclean, osfs_free_inode_blocks_i_blocks s ino, ?_, ?_, ?_⟩
    · rw [hclean]
      rfl
    · rw [hclean]
      rfl
    · rw [hclean]
      rfl

/-- C8 witness: on the concrete freshly created file (all pointer slots
zero), the free call only resets the usage counter and nr_free_blocks is
untouched (19 before and after). -/
theorem c8_free_inode_blocks_idempotent_witness :
    osfs_free_inode_blocks mountedPlusCreate 2 =
      putInode mountedPlusCreate 2
        (setBlocksCount (mountedPlusCreate.inode_table 2) 0) ∧
    (osfs_free_inode_blocks mountedPlusCreate 2).nr_free_blocks = 19 := by
  have h := (c8_free_inode_blocks_idempotent mountedPlusCreate 2).2 (by decide)
  refine ⟨h.1, ?_⟩
  rw [h.2.2.1]
  decide

/-! ### Projection lemmas for the state helpers (avoiding definitional
unfolding through modular arithmetic) -/

theorem putInode_inode_table (s : FS) (ino : Nat) (nd : OsfsInode) :
    (putInode s ino nd).inode_table = updTable s.inode_table ino nd := rfl

theorem putInode_data (s : FS) (ino : Nat) (nd : OsfsInode) :
    (putInode s ino nd).data = s.data := rfl

theorem putInode_block_bitmap (s : FS) (ino : Nat) (nd : OsfsInode) :
    (putInode s ino nd).block_bitmap = s.block_bitmap := rfl

theorem putInode_inode_bitmap (s : FS) (ino : Nat) (nd : OsfsInode) :
    (putInode s ino nd).inode_bitmap = s.inode_bitmap := rfl

theorem putInode_nr_free_blocks (s : FS) (ino : Nat) (nd : OsfsInode) :
    (putInode s ino nd).nr_free_blocks = s.nr_free_blocks := rfl

theorem putInode_nr_free_inodes (s : FS) (ino : Nat) (nd : OsfsInode) :
    (putInode s ino nd).nr_free_inodes = s.nr_free_inodes := rfl

theorem putInode_block_count (s : FS) (ino : Nat) (nd : OsfsInode) :
    (putInode s ino nd).block_count = s.block_count := rfl

theorem putData_data (s : FS) (m : Nat → Nat → Nat) : (putData s m).data = m := rfl

theorem putData_inode_table (s : FS) (m : Nat → Nat → Nat) :
    (putData s m).inode_table = s.inode_table := rfl

theorem putData_block_bitmap (s : FS) (m : Nat → Nat → Nat) :
    (putData s m).block_bitmap = s.block_bitmap := rfl

theorem putData_inode_bitmap (s : FS) (m : Nat → Nat → Nat) :
    (putData s m).inode_bitmap = s.inode_bitmap := rfl

theorem putData_nr_free_blocks (s : FS) (m : Nat → Nat → Nat) :
    (putData s m).nr_free_blocks = s.nr_free_blocks := rfl

theorem putData_nr_free_inodes (s : FS) (m : Nat → Nat → Nat) :
    (putData s m).nr_free_inodes = s.nr_free_inodes := rfl

theorem putData_block_count (s : FS) (m : Nat → Nat → Nat) :
    (putData s m).block_count = s.block_count := rfl

theorem decFreeInodes_nr_free_inodes (s : FS) :
    (decFreeInodes s).nr_free_inodes = dec32 s.nr_free_inodes := by
  unfold decFreeInodes
  rfl

theorem decFreeInodes_inode_table (s : FS) :
    (decFreeInodes s).inode_table = s.inode_table := by
  unfold decFreeInodes
  rfl

theorem decFreeInodes_inode_bitmap (s : FS) :
    (decFreeInodes s).inode_bitmap = s.inode_bitmap := by
  unfold decFreeInodes
  rfl

theorem decFreeInodes_data (s : FS) : (decFreeInodes s).data = s.data := by
  unfold decFreeInodes
  rfl

theorem decFreeInodes_block_bitmap (s : FS) :
    (decFreeInodes s).block_bitmap = s.block_bitmap := by
  unfold decFreeInodes
  rfl

theorem decFreeInodes_nr_free_blocks (s : FS) :
    (decFreeInodes s).nr_free_blocks = s.nr_free_blocks := by
  unfold decFreeInodes
  rfl

/-! ### osfs_new_inode / osfs_add_dir_entry path lemmas -/

theorem osfs_new_inode_spec (s : FS) (mode ino : Nat)
    (hmode : (S_ISDIR mode || S_ISREG mode || S_ISLNK mode) = true)
    (hcnt : s.nr_free_inodes ≠ 0)
    (hscan : scanFree s.inode_bitmap 1 (s.inode_count - 1) = some ino) :
    osfs_new_inode s mode = (0, ino,
      decFreeInodes (putInode
        { s with inode_bitmap := setBit s.inode_bitmap ino,
                 nr_free_inodes := dec32 s.nr_free_inodes } ino
        { i_ino := ino, i_size := 0, i_blocks := 0, i_mode := mode,
          i_links_count := if S_ISDIR mode then 2 else 1, i_block := fun _ => 0 })) := by
  obtain ⟨h1, h2, _, _⟩ := scanFree_spec s.inode_bitmap (s.inode_count - 1) 1 ino hscan
  unfold osfs_new_inode
  rw [if_neg (by simp [hmode]), if_neg hcnt]
  unfold osfs_get_free_inode
  rw [hscan]
  dsimp only
  rw [if_neg (show ¬ (s.inode_count ≤ ino) from by omega)]

theorem osfs_add_dir_entry_dup (u : FS) (dirIno childIno : Nat) (name : List Nat)
    (hblocks : (u.inode_table dirIno).i_blocks ≠ 0)
    (hfull : (u.inode_table dirIno).i_size / DIR_ENTRY_SIZE < MAX_DIR_ENTRIES)
    (hdup : anyDup u.data ((u.inode_table dirIno).i_block 0) name
      ((u.inode_table dirIno).i_size / DIR_ENTRY_SIZE) = true) :
    osfs_add_dir_entry u dirIno childIno name = (-EEXIST, u) := by
  unfold osfs_add_dir_entry
  rw [if_neg hblocks]
  dsimp only
  rw [if_neg (Nat.not_le.mpr hfull), if_pos hdup]

theorem osfs_create_dup_path (s sG : FS) (dirIno ino : Nat) (name : List Nat) (mode : Nat)
    (hlen : ¬ (MAX_FILENAME_LEN < name.length))
    (hnew : osfs_new_inode s mode = (0, ino, sG))
    (htab : sG.inode_table dirIno = s.inode_table dirIno)
    (hdata : sG.data = s.data)
    (hblocks : (s.inode_table dirIno).i_blocks ≠ 0)
    (hfull : (s.inode_table dirIno).i_size / DIR_ENTRY_SIZE < MAX_DIR_ENTRIES)
    (hdup : anyDup s.data ((s.inode_table dirIno).i_block 0) name
      ((s.inode_table dirIno).i_size / DIR_ENTRY_SIZE) = true) :
    osfs_create s dirIno name mode = (-EEXIST, 0, sG) := by
  unfold osfs_create
  rw [if_neg hlen, hnew]
  dsimp only
  rw [if_neg (by decide)]
  rw [osfs_add_dir_entry_dup sG dirIno ino name (by rw [htab]; exact hblocks)
    (by rw [htab]; exact hfull) (by rw [htab, hdata]; exact hdup)]
  dsimp only
  rw [if_pos (by decide)]

/-- C7 (amended): a create whose name already exists in the parent directory
returns -EEXIST, but the inode allocated before the duplicate check is
not released: the bit of the freshly scanned-out inode ino remains set in
the inode bitmap (it was clear before the call), every other bit is
unchanged, and nr_free_inodes has been decremented twice (once inside
osfs_get_free_inode and once more in osfs_new_inode). -/
theorem c7_duplicate_create_leaks_inode (s : FS) (dirIno ino : Nat)
    (name : List Nat) (mode : Nat)
    (hlen : ¬ (MAX_FILENAME_LEN < name.length))
    (hmode : (S_ISDIR mode || S_ISREG mode || S_ISLNK mode) = true)
    (hcnt : s.nr_free_inodes ≠ 0)
    (hscan : scanFree s.inode_bitmap 1 (s.inode_count - 1) = some ino)
    (hdirbit : s.inode_bitmap dirIno = true)
    (hblocks : (s.inode_table dirIno).i_blocks ≠ 0)
    (hfull : (s.inode_table dirIno).i_size / DIR_ENTRY_SIZE < MAX_DIR_ENTRIES)
    (hdup : anyDup s.data ((s.inode_table dirIno).i_block 0) name
      ((s.inode_table dirIno).i_size / DIR_ENTRY_SIZE) = true) :
    (osfs_create s dirIno name mode).1 = -EEXIST ∧
    (osfs_create s dirIno name mode).2.2.nr_free_inodes =
      dec32 (dec32 s.nr_free_inodes) ∧
    (osfs_create s dirIno name mode).2.2.inode_bitmap ino = true ∧
    s.inode_bitmap ino = false ∧
    (∀ j, j ≠ ino →
      (osfs_create s dirIno name mode).2.2.inode_bitmap j = s.inode_bitmap j) := by
  obtain ⟨h1, h2, hfree, _⟩ := scanFree_spec s.inode_bitmap (s.inode_count - 1) 1 ino hscan
  have hne : dirIno ≠ ino := by
    intro he
    rw [he, hfree] at hdirbit
    exact Bool.false_ne_true hdirbit
  have hcreate := osfs_create_dup_path s
    (decFreeInodes (putInode
      { s with inode_bitmap := setBit s.inode_bitmap ino,
               nr_free_inodes := dec32 s.nr_free_inodes } ino
      { i_ino := ino, i_size := 0, i_blocks := 0, i_mode := mode,
        i_links_count := if S_ISDIR mode then 2 else 1, i_block := fun _ => 0 }))
    dirIno ino name mode hlen
    (osfs_new_inode_spec s mode ino hmode hcnt hscan)
    (by rw [decFreeInodes_inode_table, putInode_inode_table]
        exact updTable_other _ ino _ hne)
    (by rw [decFreeInodes_data, putInode_data])
    hblocks hfull hdup
  rw [hcreate]
  dsimp only
  refine ⟨rfl, ?_, ?_, hfree, ?_⟩
  · rw [decFreeInodes_nr_free_inodes, putInode_nr_free_inodes]
  · rw [decFreeInodes_inode_bitmap, putInode_inode_bitmap]
    exact setBit_same s.inode_bitmap ino
  · intro j hj
    rw [decFreeInodes_inode_bitmap, putInode_inode_bitmap]
    exact setBit_other s.inode_bitmap ino hj

/-- C7 counterexample: on the concrete mounted state already containing
"a.txt", a second create of the same name returns -EEXIST but the
free-inode count is NOT unchanged: nr_free_inodes drops from 17 to 15
and one more inode-bitmap bit is set (zero bits 18 -> 17). -/
theorem c7_counterexample :
    (osfs_create mountedPlusCreate ROOT_INODE nameA regMode).1 = -EEXIST ∧
    mountedPlusCreate.nr_free_inodes = 17 ∧
    (osfs_create mountedPlusCreate ROOT_INODE nameA regMode).2.2.nr_free_inodes = 15 ∧
    countZeroBits mountedPlusCreate.inode_bitmap INODE_COUNT = 18 ∧
    countZeroBits (osfs_create mountedPlusCreate ROOT_INODE nameA regMode).2.2.inode_bitmap
      INODE_COUNT = 17 := by
  decide

/-- C7 witness: the amended statement applied at the concrete duplicate
create: inode 3 is scanned out, its bit becomes set (it was clear), and
-EEXIST is returned. -/
theorem c7_duplicate_create_leaks_inode_witness :
    (osfs_create mountedPlusCreate ROOT_INODE nameA regMode).1 = -EEXIST ∧
    (osfs_create mountedPlusCreate ROOT_INODE nameA regMode).2.2.inode_bitmap 3 = true ∧
    mountedPlusCreate.inode_bitmap 3 = false := by
  have h := c7_duplicate_create_leaks_inode mountedPlusCreate ROOT_INODE 3 nameA regMode
    (by decide) (by decide) (by decide) (by decide) (by decide) (by decide) (by decide)
    (by decide)
  exact ⟨h.1, h.2.2.1, h.2.2.2.1⟩

/-! ### Arithmetic helpers for the write proof -/

theorem lt_blocksSpanned_iff (L j : Nat) : j < blocksSpanned L ↔ BLOCK_SIZE * j < L := by
  unfold blocksSpanned BLOCK_SIZE
  omega

theorem blocksSpanned_last (L i : Nat) (h1 : BLOCK_SIZE * i < L)
    (h2 : L ≤ BLOCK_SIZE * (i + 1)) : blocksSpanned L = i + 1 := by
  unfold blocksSpanned BLOCK_SIZE at *
  omega

theorem allocCount_mono {i j : Nat} (h : i ≤ j) : allocCount i ≤ allocCount j := by
  unfold allocCount OSFS_N_DIRECT
  split <;> split <;> omega

theorem allocCount_of_le {i : Nat} (h : i ≤ OSFS_N_DIRECT) : allocCount i = i := by
  unfold allocCount
  rw [if_pos h]

theorem allocCount_of_gt {i : Nat} (h : ¬ i ≤ OSFS_N_DIRECT) : allocCount i = i + 1 := by
  unfold allocCount
  rw [if_neg h]

theorem physOf_lt (s : FS) (ino j : Nat) (h : j < OSFS_N_DIRECT) :
    physOf s ino j = (s.inode_table ino).i_block j := by
  unfold physOf
  rw [if_pos h]

theorem physOf_ge (s : FS) (ino j : Nat) (h : ¬ j < OSFS_N_DIRECT) :
    physOf s ino j = memReadU32b s.data ((s.inode_table ino).i_block OSFS_N_DIRECT)
      (4 * (j - OSFS_N_DIRECT)) := by
  unfold physOf
  rw [if_neg h]

theorem iterate_dec32_succ (k n : Nat) : dec32 (dec32^[k] n) = dec32^[k + 1] n :=
  (Function.iterate_succ_apply' dec32 k n).symm
